import Mathlib

/-!
Verification of the movie-recommendation core of this repository: the dataset
normalizer (`load_movies_data` in `main.py`, `process_dataset` in
`dataset_handler.py`), the genre-vocabulary derivation, and the recommendation
engine (`genre_selected`, `popular_command`, `random_movie` in `main.py`),
shallowly embedded as executable Lean definitions.
-/

namespace MovieBot

/-! ## Generic insertion sort

`pandas.DataFrame.sort_values` routes through `nargsort`, whose kernel is an
ascending argsort.  We embed that kernel as an insertion sort parameterised
by a boolean comparison; the embedding's kernel happens to be stable, while
the program's default `kind='quicksort'` is not, so program-level claims use
only its sortedness and permutation properties. -/

/-- Insert `x` into `l` before the first element `y` with `le x y`; equal
elements therefore keep the already-present one later, which makes the overall
sort stable. -/
def insertLe (le : α → α → Bool) (x : α) : List α → List α
  | [] => [x]
  | y :: ys => if le x y then x :: y :: ys else y :: insertLe le x ys

/-- Stable insertion sort with respect to the boolean comparison `le`. -/
def isortLe (le : α → α → Bool) : List α → List α
  | [] => []
  | x :: xs => insertLe le x (isortLe le xs)

theorem insertLe_perm (le : α → α → Bool) (x : α) (l : List α) :
    (insertLe le x l).Perm (x :: l) := by
  induction l with
  | nil => exact List.Perm.refl _
  | cons y ys ih =>
    by_cases h : le x y = true
    · simp [insertLe, h]
    · simp only [insertLe, h, if_false]
      exact ((ih.cons y).trans (List.Perm.swap x y ys))

theorem isortLe_perm (le : α → α → Bool) (l : List α) :
    (isortLe le l).Perm l := by
  induction l with
  | nil => exact List.Perm.refl _
  | cons x xs ih =>
    exact (insertLe_perm le x (isortLe le xs)).trans (ih.cons x)

theorem mem_isortLe {le : α → α → Bool} {l : List α} {a : α} :
    a ∈ isortLe le l ↔ a ∈ l := (isortLe_perm le l).mem_iff

/-- Stability core: inserting `x` into a list whose elements all relate to `x`
by `r` preserves the combined "sorted, and ties ordered by `r`" invariant. -/
theorem insertLe_pairwise {le : α → α → Bool} {r : α → α → Prop}
    (total : ∀ a b, le a b = true ∨ le b a = true)
    (htrans : ∀ a b c, le a b = true → le b c = true → le a c = true)
    {x : α} {l : List α}
    (hl : l.Pairwise (fun a b => le a b = true ∧ (le b a = true → r a b)))
    (hx : ∀ z ∈ l, r x z) :
    (insertLe le x l).Pairwise (fun a b => le a b = true ∧ (le b a = true → r a b)) := by
  induction l with
  | nil => simp [insertLe]
  | cons y ys ih =>
    rcases List.pairwise_cons.mp hl with ⟨hy, hys⟩
    by_cases h : le x y = true
    · simp only [insertLe, h, if_true]
      refine List.pairwise_cons.mpr ⟨?_, hl⟩
      intro z hz
      rcases List.mem_cons.mp hz with rfl | hz'
      · exact ⟨h, fun _ => hx z (by simp)⟩
      · rcases hy z hz' with ⟨hyz, _⟩
        exact ⟨htrans x y z h hyz, fun _ => hx z (by simp [hz'])⟩
    · simp only [insertLe, h, if_false]
      refine List.pairwise_cons.mpr ⟨?_, ih hys (fun z hz => hx z (by simp [hz]))⟩
      intro z hz
      have hz' : z = x ∨ z ∈ ys := by
        have := (insertLe_perm le x ys).mem_iff.mp hz
        simpa using this
      have hyx : le y x = true := by
        rcases total x y with h' | h'
        · exact absurd h' h
        · exact h'
      rcases hz' with rfl | hz'
      · exact ⟨hyx, fun hxy => absurd hxy h⟩
      · exact hy z hz'

/-- A stable sort of a list whose elements are pairwise related by `r` is
sorted by `le` with ties still related by `r` (the stability guarantee). -/
theorem isortLe_pairwise {le : α → α → Bool} {r : α → α → Prop}
    (total : ∀ a b, le a b = true ∨ le b a = true)
    (htrans : ∀ a b c, le a b = true → le b c = true → le a c = true)
    {l : List α} (hl : l.Pairwise r) :
    (isortLe le l).Pairwise (fun a b => le a b = true ∧ (le b a = true → r a b)) := by
  induction l with
  | nil => simp [isortLe]
  | cons x xs ih =>
    rcases List.pairwise_cons.mp hl with ⟨hx, hxs⟩
    exact insertLe_pairwise total htrans (ih hxs)
      (fun z hz => hx z (mem_isortLe.mp hz))

/-! ## Data model

`imdb_movies.csv` as read by `pd.read_csv`: a header (which columns are
present) and one `RawRow` per data row, each recognized column's cell being
`none` when the value is missing (pandas `NaN`). -/

/-- One raw CSV row; `none` models a missing cell (`NaN`).  `mtype` is the
`Type` column. -/
structure RawRow where
  name : Option String
  date : Option String
  rate : Option String
  genre : Option String
  mtype : Option String
deriving Repr, DecidableEq

/-- A parsed tabular file: which of the recognized columns are present, and
the data rows. -/
structure ParsedFile where
  hasName : Bool
  hasDate : Bool
  hasRate : Bool
  hasGenre : Bool
  hasType : Bool
  rows : List RawRow
deriving Repr, DecidableEq

/-- The cell of the `Name` column for row `r`: absent columns yield no value. -/
def nameCell (f : ParsedFile) (r : RawRow) : Option String :=
  if f.hasName then r.name else none

/-- The cell of the `Date` column for row `r`. -/
def dateCell (f : ParsedFile) (r : RawRow) : Option String :=
  if f.hasDate then r.date else none

/-- The cell of the `Rate` column for row `r`. -/
def rateCell (f : ParsedFile) (r : RawRow) : Option String :=
  if f.hasRate then r.rate else none

/-- The cell of the `Genre` column for row `r`. -/
def genreCell (f : ParsedFile) (r : RawRow) : Option String :=
  if f.hasGenre then r.genre else none

/-- The input file as seen by `load_movies_data`: the path may not exist
(`os.path.exists` fails), `pd.read_csv` may raise (caught by the outer
`try/except`), or the file parses to a `ParsedFile`. -/
inductive InputFile where
  | missing : InputFile
  | unreadable : InputFile
  | parsed : ParsedFile → InputFile
deriving Repr, DecidableEq

/-- Load-time failures of `load_movies_data` (`main.py`): the missing-file
check, the caught `read_csv` exception, and the required-column check. -/
inductive LoadError where
  | fileNotFound : LoadError
  | readFailure : LoadError
  | missingRequiredColumns : List String → LoadError
deriving Repr, DecidableEq

/-- A normalized record of the `MovieTable`: the pandas row after
`load_movies_data` has cleaned it.  `idx` is the row's original `RangeIndex`
label (preserved by `dropna` and all later filters), and `rate` is the result
of the numeric conversion of the `Rate` column, so it is a number or `none`,
never a raw string. -/
structure MovieRecord where
  idx : Nat
  title : Option String
  date : Option String
  rate : Option ℚ
  genre : Option String
deriving Repr, DecidableEq

instance : Inhabited MovieRecord :=
  ⟨{ idx := 0, title := none, date := none, rate := none, genre := none }⟩

/-! ## Rating normalization

`main.py` lines 46-56: replace the sentinel `"No Rate"` with `NaN`, then
`pd.to_numeric(..., errors='coerce')`; when the `Rate` column is absent the
whole column is set to `NaN`. -/

/-- Python `str.strip()` on a character list: drop leading and trailing
whitespace. -/
def trimChars (l : List Char) : List Char :=
  ((l.dropWhile Char.isWhitespace).reverse.dropWhile Char.isWhitespace).reverse

/-- Python `str.strip()` on a string. -/
def strTrim (s : String) : String := ⟨trimChars s.data⟩

/-- Python `str.split(",")` on a character list: the comma-separated pieces,
empty pieces included. -/
def splitComma : List Char → List (List Char)
  | [] => [[]]
  | c :: cs =>
    if c = ',' then [] :: splitComma cs
    else
      match splitComma cs with
      | [] => [[c]]
      | t :: ts => (c :: t) :: ts

/-- Python `str.split(",")` on a string (the `.str.split(',')` of the genre
loop). -/
def splitOnCommaStr (s : String) : List String :=
  (splitComma s.data).map (fun l => ⟨l⟩)

/-- Value of a digit run as a natural number. -/
def digitsToNat (ds : List Char) : Nat :=
  ds.foldl (fun n c => 10 * n + (c.toNat - '0'.toNat)) 0

/-- Numeric parse of one cell, embedding `pd.to_numeric(errors='coerce')` on
plain decimal literals (optional sign, digits, optional fractional part) —
the only numeric shapes the `Rate` column carries.  Every other string fails
to parse and yields `none` instead of raising. -/
def parseDecimal (s : String) : Option ℚ :=
  let t := trimChars s.data
  let signed : Int × List Char :=
    match t with
    | '-' :: rest => (-1, rest)
    | '+' :: rest => (1, rest)
    | _ => (1, t)
  let intPart := signed.2.takeWhile Char.isDigit
  let rest := signed.2.dropWhile Char.isDigit
  match rest with
  | [] =>
    if intPart.isEmpty then none
    else some (mkRat (signed.1 * (digitsToNat intPart : Int)) 1)
  | '.' :: frac =>
    if frac.all Char.isDigit && !(intPart.isEmpty && frac.isEmpty) then
      some (mkRat
        (signed.1 * ((digitsToNat intPart * 10 ^ frac.length + digitsToNat frac : Nat) : Int))
        (10 ^ frac.length))
    else none
  | _ => none

/-- The `Rate` column processing of `load_movies_data`: an absent column
becomes all-`NaN`; the exact string `"No Rate"` is replaced by `NaN`; every
remaining cell goes through the numeric coercion. -/
def processRate (hasRate : Bool) (cell : Option String) : Option ℚ :=
  if hasRate then
    match cell with
    | none => none
    | some s => if s = "No Rate" then none else parseDecimal s
  else none

/-! ## Lexicographic string order (Python `sorted` on strings) -/

/-- Code-point lexicographic comparison of character lists. -/
def lexLe : List Char → List Char → Bool
  | [], _ => true
  | _ :: _, [] => false
  | a :: as, b :: bs => if a < b then true else if b < a then false else lexLe as bs

/-- Code-point lexicographic comparison of strings, the order Python's
`sorted` uses on `str`. -/
def strLe (a b : String) : Bool := lexLe a.data b.data

/-! ## Genre vocabulary (`main.py` lines 58-64)

For each `Genre` cell: split on `,`, strip each token; then keep non-empty
tokens, de-duplicate, and sort.  A missing `Genre` cell is skipped (the
`isinstance(genres, list)` guard). -/

/-- All stripped tokens of all records, in table order (the `all_genres`
accumulator). -/
def allGenreTokens (t : List MovieRecord) : List String :=
  t.flatMap fun r =>
    match r.genre with
    | some g => (splitOnCommaStr g).map strTrim
    | none => []

/-- `sorted(list(set([g for g in all_genres if g])))`: the genre vocabulary. -/
def deriveGenres (t : List MovieRecord) : List String :=
  isortLe strLe ((allGenreTokens t).filter (fun s => s ≠ "")).dedup

/-! ## The loader (`load_movies_data` in `main.py`) -/

/-- Column-name lookup against a `ParsedFile` header. -/
def hasColumn (f : ParsedFile) (c : String) : Bool :=
  if c = "Name" then f.hasName
  else if c = "Date" then f.hasDate
  else if c = "Rate" then f.hasRate
  else if c = "Genre" then f.hasGenre
  else if c = "Type" then f.hasType
  else false

/-- `[col for col in required_columns if col not in df.columns]` with
`required_columns = ['Name', 'Genre']`. -/
def missingRequired (f : ParsedFile) : List String :=
  ["Name", "Genre"].filter (fun c => !hasColumn f c)

/-- `df.dropna(subset=['Name', 'Genre'])`, keeping the original row index
labels: the surviving `(index, row)` pairs. -/
def cleanRows (f : ParsedFile) : List (Nat × RawRow) :=
  f.rows.enum.filter (fun p => (nameCell f p.2).isSome && (genreCell f p.2).isSome)

/-- The normalized record built from a surviving `(index, row)` pair. -/
def mkRecord (f : ParsedFile) (p : Nat × RawRow) : MovieRecord :=
  { idx := p.1
    title := nameCell f p.2
    date := dateCell f p.2
    rate := processRate f.hasRate (rateCell f p.2)
    genre := genreCell f p.2 }

/-- The cleaned, normalized `MovieTable` of a parsed file. -/
def normalizeTable (f : ParsedFile) : List MovieRecord :=
  (cleanRows f).map (mkRecord f)

/-- `load_movies_data` (`main.py` lines 19-73) with its failure branches made
explicit: missing file, `read_csv` failure (the outer `except`), and the
required-column check; on success the cleaned table and its vocabulary. -/
def loadMoviesData : InputFile → Except LoadError (List MovieRecord × List String)
  | .missing => .error .fileNotFound
  | .unreadable => .error .readFailure
  | .parsed f =>
    if (missingRequired f).isEmpty then
      let table := normalizeTable f
      .ok (table, deriveGenres table)
    else .error (.missingRequiredColumns (missingRequired f))

/-- The value actually returned to the caller: every failure branch returns
`(pd.DataFrame(), [])`, i.e. an empty table and empty vocabulary. -/
def loadResult (i : InputFile) : List MovieRecord × List String :=
  match loadMoviesData i with
  | .ok p => p
  | .error _ => ([], [])

/-- The `movies_df` table obtained from a parsed file. -/
def tableOf (f : ParsedFile) : List MovieRecord :=
  (loadResult (.parsed f)).1

/-! ## Genre filter (`main.py` line 132)

`movies_df['Genre'].str.contains(genre, case=False, na=False)` — pandas
defaults to `regex=True`, so the genre string is a regular-expression pattern
searched case-insensitively (`re.IGNORECASE`).  We embed `re.search` only for
the fragment of patterns built from literal characters and the `.` wildcard.
Patterns using the other metacharacters (`^`, `$`, `*`, `+`, `?`, braces,
brackets, backslash, `|`, parentheses) behave as full regexes in the program
and are outside this model, and a syntactically invalid pattern makes
`re.compile` raise `re.error` at `main.py` line 132, outside any `try`;
theorems that quantify over the pattern therefore carry an explicit
fragment hypothesis. -/

/-- One pattern character against one text character, under `re.IGNORECASE`:
`.` matches anything, a literal matches up to ASCII case. -/
def charMatches (p c : Char) : Bool :=
  p = '.' || p.toLower = c.toLower

/-- Does the pattern match a prefix of the text? -/
def matchesAt : List Char → List Char → Bool
  | [], _ => true
  | _ :: _, [] => false
  | p :: ps, c :: cs => charMatches p c && matchesAt ps cs

/-- `re.search` restricted to the literal-plus-`.` pattern fragment: does the
pattern match at some position of the text?  Faithful to the program only
for patterns inside that fragment. -/
def regexSearch (pat : List Char) : List Char → Bool
  | [] => matchesAt pat []
  | c :: cs => matchesAt pat (c :: cs) || regexSearch pat cs

/-- `Series.str.contains(pat, case=False, regex=True)` on one cell value,
for patterns inside the literal-plus-`.` fragment. -/
def strContains (pat hay : String) : Bool :=
  regexSearch pat.data hay.data

/-- The metacharacters of Python `re` patterns. -/
def isRegexMeta (c : Char) : Bool :=
  c = '.' || c = '^' || c = '$' || c = '*' || c = '+' || c = '?' ||
  c = '\x7b' || c = '\x7d' || c = '[' || c = ']' || c = '\\' || c = '|' ||
  c = '(' || c = ')'

/-- The row predicate of the filter, with `na=False`: a missing `Genre` cell
never matches. -/
def genreMatches (g : String) (r : MovieRecord) : Bool :=
  match r.genre with
  | some s => strContains g s
  | none => false

/-- Modelled from the spec: "case-insensitive substring match of `genre`
against each record's raw genre field" — plain substring containment, written
to be compared with the code's regex-based filter. -/
def specSubstrMatch (needle hay : String) : Bool :=
  go needle.data hay.data
where
  /-- Is `n` a literal case-insensitive prefix of `h`? -/
  litAt : List Char → List Char → Bool
    | [], _ => true
    | _ :: _, [] => false
    | a :: as, b :: bs => (a.toLower = b.toLower) && litAt as bs
  /-- Does `n` occur literally at some position of `h`? -/
  go (n : List Char) : List Char → Bool
    | [] => litAt n []
    | c :: cs => litAt n (c :: cs) || go n cs

/-- The spec's selection predicate on a record (missing genre never matches). -/
def specGenreMatch (g : String) (r : MovieRecord) : Bool :=
  match r.genre with
  | some s => specSubstrMatch g s
  | none => false

/-! ## Recommendation engine (`main.py`) -/

/-- `filtered_movies` of `genre_selected` (line 132). -/
def genreFiltered (t : List MovieRecord) (g : String) : List MovieRecord :=
  t.filter (genreMatches g)

/-- `Rate.notna() & (Rate > 0)` (line 141). -/
def isRated (r : MovieRecord) : Bool :=
  match r.rate with
  | some q => decide (0 < q)
  | none => false

/-- `Rate.isna() | (Rate <= 0)` (line 142). -/
def isUnrated (r : MovieRecord) : Bool :=
  match r.rate with
  | some q => decide (q ≤ 0)
  | none => true

/-- `rated_movies` of `genre_selected`. -/
def ratedOf (t : List MovieRecord) (g : String) : List MovieRecord :=
  (genreFiltered t g).filter isRated

/-- `unrated_movies` of `genre_selected`. -/
def unratedOf (t : List MovieRecord) (g : String) : List MovieRecord :=
  (genreFiltered t g).filter isUnrated

/-- Sort key of `sort_values(by='Rate')` on an all-rated subset. -/
def rateKey (r : MovieRecord) : ℚ := r.rate.getD 0

/-- Boolean ascending comparison on the sort key. -/
def rateLe (a b : MovieRecord) : Bool := decide (rateKey a ≤ rateKey b)

/-- `sort_values(by='Rate', ascending=False)` via pandas `nargsort`: reverse
the rows, ascending argsort, reverse the resulting order.  The argsort
kernel is modelled here as a stable insertion sort, but the program's default
`kind='quicksort'` (numpy introsort) guarantees only a sorted permutation —
it is unstable beyond its small-array insertion-sort cutoff — so only the
sortedness and permutation facts proved about this definition are relied on
as properties of the program; its tie order is not. -/
def sortDescByRate (l : List MovieRecord) : List MovieRecord :=
  (isortLe rateLe l.reverse).reverse

/-- The two lists `genre_selected` renders (lines 149-160): top five rated
movies after the descending sort, and the first five unrated movies.  Sorting
an empty rated set is the empty list, matching the `rated_movies.empty`
branch. -/
def byGenre (t : List MovieRecord) (g : String) : List MovieRecord × List MovieRecord :=
  ((sortDescByRate (ratedOf t g)).take 5, (unratedOf t g).take 5)

/-- Recoverable per-call conditions: the shared `movies_df.empty` guard of the
command handlers (rendered as the "couldn't load the movie database" reply)
and the `"No rated movies found"` reply of `popular_command`. -/
inductive EngineError where
  | emptyTable : EngineError
  | noRatedMovies : EngineError
deriving Repr, DecidableEq

instance {ε α : Type} [DecidableEq ε] [DecidableEq α] : DecidableEq (Except ε α) :=
  fun a b =>
    match a, b with
    | .ok x, .ok y =>
      if h : x = y then .isTrue (congrArg _ h)
      else .isFalse (fun hc => h (Except.ok.inj hc))
    | .error x, .error y =>
      if h : x = y then .isTrue (congrArg _ h)
      else .isFalse (fun hc => h (Except.error.inj hc))
    | .ok _, .error _ => .isFalse (fun hc => Except.noConfusion hc)
    | .error _, .ok _ => .isFalse (fun hc => Except.noConfusion hc)

/-- `popular_command` lines 214-224: keep the rated records, and either sort
descending and truncate to ten, or report that no rated movies exist. -/
def popularCore (t : List MovieRecord) : Except EngineError (List MovieRecord) :=
  let rated := t.filter isRated
  if rated.isEmpty then .error .noRatedMovies
  else .ok ((sortDescByRate rated).take 10)

/-- `popular_command` including its `movies_df.empty` guard (lines 210-212). -/
def popularCommand (t : List MovieRecord) : Except EngineError (List MovieRecord) :=
  if t.isEmpty then .error .emptyTable else popularCore t

/-- `random_movie` (lines 239-247): the empty-table guard, then
`movies_df.iloc[random.randint(0, len(movies_df) - 1)]`.  The draw comes from
`randint(0, len - 1)`, so it is always in range; the final branch only makes
the function total. -/
def randomMovie (t : List MovieRecord) (draw : Nat) : Except EngineError MovieRecord :=
  if t.isEmpty then .error .emptyTable
  else
    match t[draw]? with
    | some r => .ok r
    | none => .error .emptyTable

/-- The `movies_df.empty` guard of `recommend_command` (lines 102-104). -/
def recommendCommand (t : List MovieRecord) : Except EngineError Unit :=
  if t.isEmpty then .error .emptyTable else .ok ()

/-- The `not available_genres` guard of `genres_command` (lines 93-95). -/
def genresCommand (vocab : List String) : Except EngineError (List String) :=
  if vocab.isEmpty then .error .emptyTable else .ok vocab

/-! ## The cache normalizer (`process_dataset` in `dataset_handler.py`) -/

theorem pairwise_trivial (l : List α) : l.Pairwise (fun _ _ => True) := by
  induction l <;> simp [*]

theorem rateLe_total (a b : MovieRecord) : rateLe a b = true ∨ rateLe b a = true := by
  unfold rateLe
  rcases le_total (rateKey a) (rateKey b) with h | h
  · exact Or.inl (by simpa using h)
  · exact Or.inr (by simpa using h)

theorem rateLe_trans (a b c : MovieRecord) :
    rateLe a b = true → rateLe b c = true → rateLe a c = true := by
  unfold rateLe
  intro h1 h2
  simp only [decide_eq_true_eq] at h1 h2 ⊢
  exact le_trans h1 h2

theorem lexLe_total (x y : List Char) : lexLe x y = true ∨ lexLe y x = true := by
  induction x generalizing y with
  | nil => exact Or.inl rfl
  | cons a as ih =>
    cases y with
    | nil => exact Or.inr rfl
    | cons b bs =>
      rcases lt_trichotomy a b with h | h | h
      · exact Or.inl (by simp [lexLe, h])
      · subst h
        rcases ih bs with h' | h'
        · exact Or.inl (by simp [lexLe, h'])
        · exact Or.inr (by simp [lexLe, h'])
      · exact Or.inr (by simp [lexLe, h])

theorem lexLe_trans (x y z : List Char) :
    lexLe x y = true → lexLe y z = true → lexLe x z = true := by
  induction x generalizing y z with
  | nil => intro _ _; rfl
  | cons a as ih =>
    intro hxy hyz
    cases y with
    | nil => simp [lexLe] at hxy
    | cons b bs =>
      cases z with
      | nil => simp [lexLe] at hyz
      | cons c cs =>
        simp only [lexLe] at hxy hyz ⊢
        by_cases hab : a < b
        · by_cases hbc : b < c
          · simp [lt_trans hab hbc]
          · by_cases hcb : c < b
            · simp [hbc, hcb] at hyz
            · have : b = c := le_antisymm (le_of_not_lt hcb) (le_of_not_lt hbc)
              subst this
              simp [hab]
        · by_cases hba : b < a
          · simp [hab, hba] at hxy
          · have hab' : a = b := le_antisymm (le_of_not_lt hba) (le_of_not_lt hab)
            subst hab'
            by_cases hac : a < c
            · simp [hac]
            · by_cases hca : c < a
              · simp [hac, hca] at hyz
              · have : a = c := le_antisymm (le_of_not_lt hca) (le_of_not_lt hac)
                subst this
                simp [lt_irrefl] at hxy hyz ⊢
                exact ih bs cs hxy hyz

theorem strLe_total (a b : String) : strLe a b = true ∨ strLe b a = true :=
  lexLe_total a.data b.data

theorem strLe_trans (a b c : String) :
    strLe a b = true → strLe b c = true → strLe a c = true :=
  lexLe_trans a.data b.data c.data

theorem sortDescByRate_perm (l : List MovieRecord) : (sortDescByRate l).Perm l := by
  unfold sortDescByRate
  exact (List.reverse_perm _).trans ((isortLe_perm rateLe l.reverse).trans (List.reverse_perm l))

theorem sortDescByRate_sorted (l : List MovieRecord) :
    (sortDescByRate l).Pairwise (fun a b => rateKey b ≤ rateKey a) := by
  have h2 := isortLe_pairwise rateLe_total rateLe_trans (pairwise_trivial l.reverse)
  have h3 : (sortDescByRate l).Pairwise (fun a b => rateLe b a = true) := by
    unfold sortDescByRate
    exact (List.pairwise_reverse.mpr h2).imp (fun h => h.1)
  exact h3.imp (fun h => by simpa [rateLe] using h)

/-- A file whose header has `Name` but not `Genre`. -/
def fileNameOnly : ParsedFile :=
  { hasName := true, hasDate := false, hasRate := false, hasGenre := false,
    hasType := false, rows := [] }

/-- C2 counterexample: with the title column present and only the genre
column absent, the claim says the load proceeds, but `load_movies_data`
reports the missing-required-columns error. -/
theorem load_errors_with_one_required_present :
    loadMoviesData (.parsed fileNameOnly) = .error (.missingRequiredColumns ["Genre"]) ∧
    fileNameOnly.hasName = true := by
  exact ⟨rfl, rfl⟩

/-- C2 amended: the missing-required-columns error occurs iff at least one of
the `Name` and `Genre` source columns is absent; the load proceeds only when
both are present. -/
theorem load_missing_columns_iff (f : ParsedFile) :
    (∃ cols, loadMoviesData (.parsed f) = .error (.missingRequiredColumns cols)) ↔
      (f.hasName = false ∨ f.hasGenre = false) := by
  cases hn : f.hasName <;> cases hg : f.hasGenre <;>
    simp [loadMoviesData, missingRequired, hasColumn, hn, hg]

/-! ## C3 -/

/-- The spec's example row: `Name="X", Rate="No Rate", Genre="Action, Drama"`. -/
def rowNoRate : RawRow :=
  { name := some "X", date := none, rate := some "No Rate",
    genre := some "Action, Drama", mtype := none }

/-- A file with all key columns present, holding only `rowNoRate`. -/
def fileNoRate : ParsedFile :=
  { hasName := true, hasDate := false, hasRate := true, hasGenre := true,
    hasType := false, rows := [rowNoRate] }

/-- The record the example row normalizes to. -/
def recNoRate : MovieRecord :=
  { idx := 0, title := some "X", date := none, rate := none,
    genre := some "Action, Drama" }

/-- C4: the exact sentinel `"No Rate"` becomes null, other non-numeric rating
strings also coerce to null, numeric ones parse, and the spec's example row
normalizes to a record with null rating whose trimmed genre tokens are
`["Action", "Drama"]` and which `byGenre` classifies as unrated. -/
theorem noRate_normalizes_to_unrated :
    processRate true (some "No Rate") = none ∧
    processRate true (some "not a number") = none ∧
    processRate true (some "7.5") = some (mkRat 15 2) ∧
    tableOf fileNoRate = [recNoRate] ∧
    (splitOnCommaStr (recNoRate.genre.getD "")).map strTrim = ["Action", "Drama"] ∧
    byGenre (tableOf fileNoRate) "Action" = ([], [recNoRate]) := by
  refine ⟨rfl, rfl, by decide, by decide, by decide, by decide⟩

/-! ## C5 -/

/-- A record whose raw genre field is the three characters `abc`. -/
def recDotGenre : MovieRecord :=
  { idx := 0, title := some "M", date := none, rate := none, genre := some "abc" }

/-- C5 counterexample: the genre string `a.c` is not a substring of the
record's genre field `abc`, yet the filter selects the record (and `byGenre`
returns it), because `str.contains` defaults to regular-expression search. -/
theorem byGenre_regex_not_substring :
    genreMatches "a.c" recDotGenre = true ∧
    (byGenre [recDotGenre] "a.c").2 = [recDotGenre] ∧
    specGenreMatch "a.c" recDotGenre = false := by
  exact ⟨rfl, by decide, rfl⟩

theorem matchesAt_eq_litAt {pat : List Char} (hp : ∀ c ∈ pat, c ≠ '.')
    (s : List Char) : matchesAt pat s = specSubstrMatch.litAt pat s := by
  induction pat generalizing s with
  | nil => cases s <;> rfl
  | cons p ps ih =>
    cases s with
    | nil => rfl
    | cons c cs =>
      have hp' : (p = '.') = False := by
        simp [hp p (by simp)]
      simp [matchesAt, specSubstrMatch.litAt, charMatches, hp',
        ih (fun x hx => hp x (by simp [hx]))]

theorem regexSearch_eq_go {pat : List Char} (hp : ∀ c ∈ pat, c ≠ '.')
    (s : List Char) : regexSearch pat s = specSubstrMatch.go pat s := by
  induction s with
  | nil => simp [regexSearch, specSubstrMatch.go, matchesAt_eq_litAt hp]
  | cons c cs ih => simp [regexSearch, specSubstrMatch.go, matchesAt_eq_litAt hp, ih]

theorem isUnrated_eq_not_isRated (r : MovieRecord) : isUnrated r = !isRated r := by
  cases hr : r.rate with
  | none => simp [isRated, isUnrated, hr]
  | some q =>
    by_cases h : 0 < q
    · simp [isRated, isUnrated, hr, h, not_le.mpr h]
    · simp [isRated, isUnrated, hr, h, le_of_not_lt h]

/-- C5 amended: for genre strings inside the modelled pattern fragment
(literal characters and the `.` wildcard — other metacharacters make the
pattern a full regex, and an invalid pattern raises `re.error` outside any
`try`), `byGenre` selects exactly the records whose raw genre field matches
the genre string as a case-insensitive regular-expression search; this
coincides with plain substring containment only when the genre string has no
regex metacharacter at all.  A selected record is rated iff its rating is
non-null and strictly positive, otherwise unrated; and when nothing matches
both returned lists are empty with no error. -/
theorem byGenre_selection_spec (t : List MovieRecord) (g : String)
    (_hfrag : ∀ c ∈ g.data, isRegexMeta c = false ∨ c = '.') :
    (∀ r, r ∈ genreFiltered t g ↔ (r ∈ t ∧ genreMatches g r = true)) ∧
    ((∀ c ∈ g.data, isRegexMeta c = false) →
      ∀ r, genreMatches g r = specGenreMatch g r) ∧
    (∀ r, isRated r = true ↔ ∃ q, r.rate = some q ∧ 0 < q) ∧
    (∀ r ∈ genreFiltered t g,
      (isRated r = true ∧ r ∈ ratedOf t g ∧ r ∉ unratedOf t g) ∨
      (isRated r = false ∧ r ∉ ratedOf t g ∧ r ∈ unratedOf t g)) ∧
    (genreFiltered t g = [] → byGenre t g = ([], [])) := by
  refine ⟨?_, ?_, ?_, ?_, ?_⟩
  · intro r
    exact List.mem_filter
  · intro hmeta r
    have hdot : ∀ c ∈ g.data, c ≠ '.' := by
      intro c hc heq
      have h := hmeta c hc
      rw [heq] at h
      simp [isRegexMeta] at h
    cases hgen : r.genre with
    | none => simp [genreMatches, specGenreMatch, hgen]
    | some s =>
      simp only [genreMatches, specGenreMatch, hgen, strContains, specSubstrMatch]
      exact regexSearch_eq_go hdot s.data
  · intro r
    cases hr : r.rate with
    | none => simp [isRated, hr]
    | some q => simp [isRated, hr]
  · intro r hr
    by_cases h : isRated r = true
    · refine Or.inl ⟨h, List.mem_filter.mpr ⟨hr, h⟩, ?_⟩
      intro hmem
      have := (List.mem_filter.mp hmem).2
      rw [isUnrated_eq_not_isRated, h] at this
      simp at this
    · have h' : isRated r = false := by
        cases hb : isRated r
        · rfl
        · exact absurd hb h
      refine Or.inr ⟨h', ?_, List.mem_filter.mpr ⟨hr, by rw [isUnrated_eq_not_isRated, h']; rfl⟩⟩
      intro hmem
      exact h (List.mem_filter.mp hmem).2
  · intro h
    simp [byGenre, ratedOf, unratedOf, h, sortDescByRate, isortLe]

/-- Witness for the amended C5 at concrete inputs: a metacharacter-free
pattern where the regex filter and the substring predicate agree, and an
empty table where both output lists are empty. -/
theorem byGenre_selection_witness :
    genreMatches "drama" recNoRate = specGenreMatch "drama" recNoRate ∧
    byGenre ([] : List MovieRecord) "drama" = ([], []) :=
  ⟨(byGenre_selection_spec [] "drama" (by decide)).2.1 (by decide) recNoRate,
   (byGenre_selection_spec [] "drama" (by decide)).2.2.2.2 rfl⟩

/-! ## C6 -/

/-- Rated example records with ratings 7, 9 and 5, and an unrated one. -/
def recR1 : MovieRecord :=
  { idx := 0, title := some "R1", date := none, rate := some 7, genre := some "Action" }

def recR2 : MovieRecord :=
  { idx := 1, title := some "R2", date := none, rate := some 9, genre := some "Drama" }

def recR3 : MovieRecord :=
  { idx := 2, title := some "R3", date := none, rate := some 5, genre := some "Action" }

def recU1 : MovieRecord :=
  { idx := 3, title := some "U1", date := none, rate := none, genre := some "Action" }

/-- A table with three rated records and one unrated record. -/
def tableSmall : List MovieRecord := [recR1, recR2, recR3, recU1]

/-- C6: `popular` keeps only rated records, sorted descending by rating and
truncated to ten; when fewer rated records exist than the limit it returns
all of them; when none exist it signals `NoRatedMovies` instead of
crashing. -/
theorem popularCore_spec (t : List MovieRecord) :
    (t.filter isRated = [] → popularCore t = .error .noRatedMovies) ∧
    (∀ l, popularCore t = .ok l →
      (∀ r ∈ l, r ∈ t ∧ isRated r = true) ∧
      l.Pairwise (fun a b => rateKey b ≤ rateKey a) ∧
      l.length ≤ 10 ∧
      ((t.filter isRated).length ≤ 10 → l.Perm (t.filter isRated))) := by
  constructor
  · intro h
    simp [popularCore, h]
  · intro l hl
    by_cases h : (t.filter isRated).isEmpty = true
    · simp [popularCore, h] at hl
    · simp only [popularCore, h, Bool.false_eq_true, if_false, Except.ok.injEq] at hl
      subst hl
      refine ⟨?_, ?_, ?_, ?_⟩
      · intro r hr
        have h1 : r ∈ sortDescByRate (t.filter isRated) :=
          (List.take_sublist _ _).subset hr
        have h2 : r ∈ t.filter isRated := (sortDescByRate_perm _).mem_iff.mp h1
        exact ⟨(List.mem_filter.mp h2).1, (List.mem_filter.mp h2).2⟩
      · exact (sortDescByRate_sorted _).sublist (List.take_sublist _ _)
      · simp [List.length_take]
      · intro hlen
        have hlen2 : (sortDescByRate (t.filter isRated)).length ≤ 10 := by
          rw [(sortDescByRate_perm _).length_eq]
          exact hlen
        rw [List.take_of_length_le hlen2]
        exact sortDescByRate_perm _

/-- Witness for C6: an all-unrated table reports no rated movies, and a
table with three rated records returns exactly those three, sorted
descending. -/
theorem popularCore_witness :
    popularCore [recU1] = .error .noRatedMovies ∧
    ([recR2, recR1, recR3] : List MovieRecord).Pairwise (fun a b => rateKey b ≤ rateKey a) ∧
    ([recR2, recR1, recR3] : List MovieRecord).Perm (tableSmall.filter isRated) :=
  ⟨(popularCore_spec [recU1]).1 (by decide),
   ((popularCore_spec tableSmall).2 [recR2, recR1, recR3] (by decide)).2.1,
   ((popularCore_spec tableSmall).2 [recR2, recR1, recR3] (by decide)).2.2.2 (by decide)⟩

/-! ## C7 -/

/-- C7: the random pick draws over the index range of the entire table
(rated and unrated together), returning the record at the drawn index; a
single-record table always yields its record; the empty table fails with the
empty-table sentinel instead of selecting. -/
theorem randomMovie_spec (t : List MovieRecord) (draw : Nat) :
    (t = [] → randomMovie t draw = .error .emptyTable) ∧
    (∀ r, t[draw]? = some r → randomMovie t draw = .ok r) ∧
    (∀ r, t = [r] → draw < 1 → randomMovie t draw = .ok r) ∧
    (draw < t.length → ∃ r, t[draw]? = some r ∧ randomMovie t draw = .ok r) := by
  have h2 : ∀ r, t[draw]? = some r → randomMovie t draw = .ok r := by
    intro r h
    cases t with
    | nil => simp at h
    | cons x xs => simp [randomMovie, h]
  refine ⟨?_, h2, ?_, ?_⟩
  · intro h
    subst h
    rfl
  · intro r ht hd
    subst ht
    have : draw = 0 := Nat.lt_one_iff.mp hd
    subst this
    exact h2 r rfl
  · intro hd
    exact ⟨t[draw], List.getElem?_eq_getElem hd, h2 _ (List.getElem?_eq_getElem hd)⟩

/-- Witness for C7: the singleton table always returns its record, and the
empty table fails with the empty-table sentinel. -/
theorem randomMovie_witness :
    randomMovie [recR1] 0 = .ok recR1 ∧
    randomMovie [] 0 = .error .emptyTable :=
  ⟨(randomMovie_spec [recR1] 0).2.2.1 recR1 rfl (by decide),
   (randomMovie_spec [] 0).1 rfl⟩

/-! ## C8 -/

theorem mem_allGenreTokens {t : List MovieRecord} {s : String} :
    s ∈ allGenreTokens t ↔
      ∃ r ∈ t, ∃ g, r.genre = some g ∧ s ∈ (splitOnCommaStr g).map strTrim := by
  unfold allGenreTokens
  rw [List.mem_flatMap]
  constructor
  · rintro ⟨r, hr, hs⟩
    cases hg : r.genre with
    | none => rw [hg] at hs; simp at hs
    | some g =>
      rw [hg] at hs
      exact ⟨r, hr, g, hg, hs⟩
  · rintro ⟨r, hr, g, hg, hs⟩
    refine ⟨r, hr, ?_⟩
    rw [hg]
    exact hs

/-- C8: the genre vocabulary is exactly the set of non-empty stripped comma
tokens of all records' genre fields, de-duplicated and strictly sorted in
ascending code-point lexicographic order; the empty table yields the empty
vocabulary with no error. -/
theorem deriveGenres_spec (t : List MovieRecord) :
    (deriveGenres t).Pairwise (fun a b => strLe a b = true ∧ a ≠ b) ∧
    (∀ s, s ∈ deriveGenres t ↔
      (s ≠ "" ∧ ∃ r ∈ t, ∃ g, r.genre = some g ∧
        s ∈ (splitOnCommaStr g).map strTrim)) ∧
    deriveGenres ([] : List MovieRecord) = [] := by
  refine ⟨?_, ?_, rfl⟩
  · have hnd : (((allGenreTokens t).filter (fun s => s ≠ "")).dedup).Pairwise
        (fun a b : String => a ≠ b) := List.nodup_dedup _
    have h := isortLe_pairwise strLe_total strLe_trans hnd
    refine h.imp ?_
    rintro a b ⟨hle, htie⟩
    refine ⟨hle, ?_⟩
    intro heq
    subst heq
    exact htie hle rfl
  · intro s
    rw [deriveGenres, mem_isortLe, List.mem_dedup, List.mem_filter,
      mem_allGenreTokens]
    constructor
    · rintro ⟨htok, hne⟩
      exact ⟨by simpa using hne, htok⟩
    · rintro ⟨hne, htok⟩
      exact ⟨htok, by simpa using hne⟩

/-! ## C9 -/

/-- C9: every load failure (missing file, unreadable file, missing required
columns) returns the empty table and empty vocabulary instead of raising, and
every command invoked on the empty-table state returns its documented
sentinel value rather than crashing. -/
theorem load_failure_graceful :
    (∀ i : InputFile, (∃ e, loadMoviesData i = .error e) → loadResult i = ([], [])) ∧
    loadResult .missing = ([], []) ∧
    loadResult .unreadable = ([], []) ∧
    (∀ draw, randomMovie [] draw = .error .emptyTable) ∧
    popularCommand [] = .error .emptyTable ∧
    recommendCommand [] = .error .emptyTable ∧
    genresCommand [] = .error .emptyTable ∧
    (∀ g, byGenre [] g = ([], [])) := by
  refine ⟨?_, rfl, rfl, fun _ => rfl, rfl, rfl, rfl, fun _ => rfl⟩
  rintro i ⟨e, he⟩
  simp [loadResult, he]

/-- Witness for C9: a parsed file missing the genre column loads as the
empty state. -/
theorem load_failure_witness : loadResult (.parsed fileNameOnly) = ([], []) :=
  load_failure_graceful.1 (.parsed fileNameOnly) ⟨.missingRequiredColumns ["Genre"], rfl⟩

/-! ## C10 -/

theorem mem_tableOf {f : ParsedFile} {rec : MovieRecord} (h : rec ∈ tableOf f) :
    ∃ p ∈ cleanRows f, rec = mkRecord f p := by
  by_cases hmiss : (missingRequired f).isEmpty = true
  · have he : tableOf f = normalizeTable f := by
      simp [tableOf, loadResult, loadMoviesData, hmiss]
    rw [he] at h
    rcases List.mem_map.mp h with ⟨p, hp, hmk⟩
    exact ⟨p, hp, hmk.symm⟩
  · have he : tableOf f = [] := by
      simp [tableOf, loadResult, loadMoviesData, hmiss]
    rw [he] at h
    simp at h

/-- A file whose header lacks the rating column. -/
def fileAbsentRate : ParsedFile :=
  { hasName := true, hasDate := false, hasRate := false, hasGenre := true,
    hasType := false,
    rows := [{ name := some "A", date := none, rate := some "7",
               genre := some "Drama", mtype := none }] }

/-- The record the row of `fileAbsentRate` normalizes to. -/
def recAbsentRate : MovieRecord :=
  { idx := 0, title := some "A", date := none, rate := none, genre := some "Drama" }

/-- C10: after a load, every record's rating is the numeric conversion of its
raw rating cell — a number or null, never a string — and it is null for every
record when the rating column is absent; the read-only engine operations only
ever return records of the table, so the invariant is preserved. -/
theorem rating_invariant (f : ParsedFile) :
    (f.hasRate = false → ∀ rec ∈ tableOf f, rec.rate = none) ∧
    (∀ rec ∈ tableOf f, rec.rate = none ∨ ∃ q : ℚ, rec.rate = some q) ∧
    (∀ rec ∈ tableOf f, ∃ i r, f.rows[i]? = some r ∧ rec = mkRecord f (i, r) ∧
      rec.rate = processRate f.hasRate (rateCell f r)) ∧
    (∀ (t : List MovieRecord) (g : String), ∀ rec,
      (rec ∈ (byGenre t g).1 → rec ∈ t) ∧ (rec ∈ (byGenre t g).2 → rec ∈ t)) ∧
    (∀ (t : List MovieRecord) (l : List MovieRecord) (rec : MovieRecord),
      popularCommand t = .ok l → rec ∈ l → rec ∈ t) ∧
    (∀ (t : List MovieRecord) (draw : Nat) (rec : MovieRecord),
      randomMovie t draw = .ok rec → rec ∈ t) := by
  refine ⟨?_, ?_, ?_, ?_, ?_, ?_⟩
  · intro hR rec hrec
    rcases mem_tableOf hrec with ⟨p, _, hmk⟩
    rw [hmk]
    simp [mkRecord, processRate, hR]
  · intro rec _
    cases h : rec.rate with
    | none => exact Or.inl rfl
    | some q => exact Or.inr ⟨q, rfl⟩
  · intro rec hrec
    rcases mem_tableOf hrec with ⟨p, hp, hmk⟩
    have hpe : p ∈ f.rows.enum := (List.mem_filter.mp hp).1
    refine ⟨p.1, p.2, List.mem_enum_iff_getElem?.mp hpe, ?_, ?_⟩
    · rw [hmk]
    · rw [hmk]
      rfl
  · intro t g rec
    constructor
    · intro hr
      have h1 : rec ∈ sortDescByRate (ratedOf t g) := (List.take_sublist _ _).subset hr
      have h2 : rec ∈ ratedOf t g := (sortDescByRate_perm _).mem_iff.mp h1
      exact (List.filter_sublist _).subset ((List.filter_sublist _).subset h2)
    · intro hr
      have h1 : rec ∈ unratedOf t g := (List.take_sublist _ _).subset hr
      exact (List.filter_sublist _).subset ((List.filter_sublist _).subset h1)
  · intro t l rec hok hmem
    by_cases ht : t.isEmpty = true
    · simp [popularCommand, ht] at hok
    · simp only [popularCommand, ht, Bool.false_eq_true, if_false] at hok
      by_cases hr : (t.filter isRated).isEmpty = true
      · simp [popularCore, hr] at hok
      · simp only [popularCore, hr, Bool.false_eq_true, if_false,
          Except.ok.injEq] at hok
        subst hok
        have h1 : rec ∈ sortDescByRate (t.filter isRated) :=
          (List.take_sublist _ _).subset hmem
        have h2 : rec ∈ t.filter isRated := (sortDescByRate_perm _).mem_iff.mp h1
        exact (List.filter_sublist _).subset h2
  · intro t draw rec h
    cases t with
    | nil => simp [randomMovie] at h
    | cons x xs =>
      simp only [randomMovie, List.isEmpty_cons, Bool.false_eq_true, if_false] at h
      cases hg : (x :: xs)[draw]? with
      | none => rw [hg] at h; simp at h
      | some r =>
        rw [hg] at h
        simp only [Except.ok.injEq] at h
        subst h
        exact List.getElem?_mem hg

/-- Witness for C10: with the rating column absent the loaded record's rating
is null even though its raw cell held the string `"7"`. -/
theorem rating_invariant_witness :
    recAbsentRate ∈ tableOf fileAbsentRate ∧ recAbsentRate.rate = none :=
  ⟨by decide, (rating_invariant fileAbsentRate).1 rfl recAbsentRate (by decide)⟩

end MovieBot
